import Mathlib

/-!
Shallow embedding of the randomness-analysis pipeline
(`my_module/data_processing.py`, `my_module/analysis.py`,
`my_module/testing.py`): dataset generation, metric computation,
chi-square uniformity testing and k-means cluster labelling, together
with proofs of the pipeline's numeric and error-handling contracts.

Machine floats are idealised as rationals; external statistical
primitives (the chi-square survival function of scipy, the k-means
fit-predict of sklearn, the seeded Mersenne-Twister stream of numpy)
are modelled as explicit deterministic parameters or streams, since the
pipeline's contracts depend only on their input/output shape and
determinism, not on their numeric internals.
-/

/-- Equality of call results (success value or raised error) is
decidable, so contracts can be checked on concrete inputs. -/
instance {ε α : Type} [DecidableEq ε] [DecidableEq α] :
    DecidableEq (Except ε α) := fun x y =>
  match x, y with
  | .error a, .error b =>
    if h : a = b then .isTrue (by rw [h])
    else .isFalse (by intro hc; cases hc; exact h rfl)
  | .error _, .ok _ => .isFalse (by intro hc; cases hc)
  | .ok _, .error _ => .isFalse (by intro hc; cases hc)
  | .ok a, .ok b =>
    if h : a = b then .isTrue (by rw [h])
    else .isFalse (by intro hc; cases hc; exact h rfl)

/-- A cell of a pandas DataFrame column as used by this pipeline:
an integer, a string, or a timestamp.  `vTime m` denotes the instant
`2024-01-01T00:00 + m minutes` (the fixed epoch of the generator). -/
inductive Value where
  | vInt (n : Int)
  | vStr (s : String)
  | vTime (minutesFromEpoch : Nat)
deriving DecidableEq, Repr

/-- The strict order pandas uses when sorting column values (as in
`Series.mode`, which returns the most frequent values sorted
ascending): within a homogeneous column it is the natural order of the
underlying values; constructors are ordered `vInt < vStr < vTime` so
that the order is total on all of `Value`. -/
def Value.ltB : Value → Value → Bool
  | .vInt a, .vInt b => decide (a < b)
  | .vInt _, .vStr _ => true
  | .vInt _, .vTime _ => true
  | .vStr _, .vInt _ => false
  | .vStr a, .vStr b => decide (a < b)
  | .vStr _, .vTime _ => true
  | .vTime _, .vInt _ => false
  | .vTime _, .vStr _ => false
  | .vTime a, .vTime b => decide (a < b)

/-- A pandas DataFrame: an ordered association list of named columns. -/
structure Dataset where
  cols : List (String × List Value)
deriving DecidableEq, Repr

/-- Column lookup, `data[column]`: the first column with the given
name, or `none` (pandas raises `KeyError`). -/
def Dataset.getCol (d : Dataset) (c : String) : Option (List Value) :=
  (d.cols.find? (fun p => p.1 == c)).map (fun p => p.2)

/-- Column assignment on the underlying association list: overwrite the
first column of that name in place, or append a new column at the end
(the semantics of `data[c] = v` on a DataFrame). -/
def setColList (c : String) (v : List Value) : List (String × List Value) → List (String × List Value)
  | [] => [(c, v)]
  | p :: rest => if p.1 == c then (c, v) :: rest else p :: setColList c v rest

/-- Column assignment `data[c] = v`. -/
def Dataset.setCol (d : Dataset) (c : String) (v : List Value) : Dataset :=
  ⟨setColList c v d.cols⟩

/-- `len(data)`: the number of rows of a DataFrame (the length of its
first column; 0 when there are no columns). -/
def Dataset.rowCount (d : Dataset) : Nat :=
  match d.cols with
  | [] => 0
  | p :: _ => p.2.length

/-- The DataFrame is rectangular: every column has `rowCount` rows. -/
def Dataset.Rect (d : Dataset) : Prop :=
  ∀ p ∈ d.cols, p.2.length = d.rowCount

instance (d : Dataset) : Decidable d.Rect := by
  unfold Dataset.Rect; infer_instance

/-! ## Metrics Calculator (`analysis.calculate_metrics`) -/

/-- `value_counts().iloc[0]`: the largest occurrence count among the
distinct values of the column (`value_counts` sorts counts descending,
so its first entry is the maximum). -/
def maxCount (xs : List Value) : Nat :=
  (xs.dedup.map (fun v => xs.count v)).foldr max 0

/-- The distinct values of the column attaining the maximal count:
the candidate set from which `Series.mode` is built. -/
def modeCandidates (xs : List Value) : List Value :=
  xs.dedup.filter (fun v => xs.count v == maxCount xs)

/-- The least element (under `Value.ltB`) of `m :: l`. -/
def minValueAux (m : Value) : List Value → Value
  | [] => m
  | v :: rest => minValueAux (if Value.ltB v m then v else m) rest

/-- `data[column].mode()[0]`: `Series.mode` returns the maximal-count
values sorted ascending, and `[0]` selects the first, i.e. the least
maximal-count value.  (Total function; the `vInt 0` default is only
reached on an empty column, where pandas raises instead — callers
guard that case.) -/
def mode0 (xs : List Value) : Value :=
  match modeCandidates xs with
  | [] => .vInt 0
  | v :: rest => minValueAux v rest

/-- The record returned by `calculate_metrics`. -/
structure MetricsResult where
  num_unique : Nat
  num_total : Nat
  proportion_unique : ℚ
  most_common : Value
  count_most_common : Nat
deriving DecidableEq, Repr

/-- Failures of `calculate_metrics`: the `KeyError` raised by
`data[column]` on a missing column, and the `ZeroDivisionError` raised
by `num_unique / num_total` on a zero-row column (the spec's
`UnknownColumn` and `EmptyColumn`). -/
inductive MetricsError where
  | UnknownColumn
  | EmptyColumn
deriving DecidableEq, Repr

/-- `analysis.calculate_metrics(data, column)`: distinct-value count,
row count, their ratio, the mode and its count.  The column lookup
`data[column]` is evaluated first, so a missing column fails with
`UnknownColumn` even on a zero-row dataset. -/
def calculate_metrics (data : Dataset) (column : String) :
    Except MetricsError MetricsResult :=
  match data.getCol column with
  | none => .error .UnknownColumn
  | some xs =>
    if xs.length = 0 then .error .EmptyColumn
    else .ok
      { num_unique := xs.dedup.length
        num_total := xs.length
        proportion_unique := (xs.dedup.length : ℚ) / (xs.length : ℚ)
        most_common := mode0 xs
        count_most_common := maxCount xs }

/-! ## Uniformity Tester (`testing.perform_chi_square_test`) -/

/-- Failures of `perform_chi_square_test`: the `KeyError` of a missing
column, and the `ZeroDivisionError` raised by
`len(data) / len(observed)` when the column has no values at all (the
spec's `DegenerateInput`). -/
inductive TestError where
  | UnknownColumn
  | DegenerateInput
deriving DecidableEq, Repr

/-- `testing.perform_chi_square_test(data, column)`.  `observed` is the
vector of occurrence counts of the distinct values present in the
column (zero-count categories never enter it); `expected` is the
constant `len(data) / len(observed)`; the statistic is
`Σ (observed − expected)² / expected` and the p-value is obtained from
the external chi-square survival function `sf` at
`len(observed) − 1` degrees of freedom, exactly as `scipy.stats.chisquare`
computes it.  `sf` is a parameter: the pipeline treats the distribution
evaluator as a black box. -/
def perform_chi_square_test (sf : Nat → ℚ → ℚ) (data : Dataset) (column : String) :
    Except TestError (ℚ × ℚ) :=
  match data.getCol column with
  | none => .error .UnknownColumn
  | some xs =>
    let k := xs.dedup.length
    if k = 0 then .error .DegenerateInput
    else
      let e : ℚ := (data.rowCount : ℚ) / (k : ℚ)
      let chi2 := (xs.dedup.map (fun v => ((xs.count v : ℚ) - e) ^ 2 / e)).sum
      .ok (chi2, sf (k - 1) chi2)

/-! ## Dataset Generator (`data_processing.generate_random_dataset`) -/

/-- numpy's global random state: the seed it was last seeded with and
the number of elementary draws made since seeding. -/
structure GlobalRng where
  seed : Nat
  counter : Nat
deriving DecidableEq, Repr

/-- Deterministic stand-in for the seeded Mersenne-Twister draw stream:
`npStream s t` is the `t`-th raw draw after `np.random.seed(s)`.  The
pipeline's contracts depend only on the stream being a fixed
deterministic function of the seed and the draw index, so a concrete
mixing function models it. -/
def npStream (seed t : Nat) : Nat :=
  ((seed + 1) * 2654435761 + t * 2246822519 + 3266489917) % 4294967296

/-- Selection of one candidate by a raw draw, as in `np.random.choice`:
the draw is reduced modulo the number of candidates. -/
def pick {α : Type} (l : List α) (d : α) (k : Nat) : α :=
  l.getD (k % l.length) d

/-- The candidate responses of the generator, `[1, ..., 10]`. -/
def responseChoices : List Int := [1, 2, 3, 4, 5, 6, 7, 8, 9, 10]

/-- The hard-coded sampling weights of the generator,
`[0.1, 0.15, 0.05, 0.1, 0.2, 0.1, 0.1, 0.1, 0.05, 0.05]`. -/
def responseWeights : List ℚ :=
  [1/10, 3/20, 1/20, 1/10, 1/5, 1/10, 1/10, 1/10, 1/20, 1/20]

/-- The candidate categories of the generator. -/
def categoryChoices : List String := ["A", "B", "C", "D"]

/-- The probability-vector validation `np.random.choice` performs on
its `p` argument: the weights must sum to 1 within floating
tolerance. -/
def weightsOk (w : List ℚ) : Bool :=
  decide (|w.sum - 1| ≤ 1 / 1000000)

/-- Failure of the generator: the `ValueError` numpy raises for a
negative sample size or an invalid probability vector (the spec's
`InvalidArgument`). -/
inductive GenError where
  | InvalidArgument
deriving DecidableEq, Repr

/-- `data_processing.generate_random_dataset(filename, num_rows)`.
First `np.random.seed(42)` resets the global stream (the incoming
global state `g` is discarded), then `num_rows` weighted response
draws, `num_rows` category draws and the minute-spaced timestamp range
starting at the fixed epoch are combined into a DataFrame.  numpy
rejects a negative size and an invalid weight vector; `num_rows = 0`
is accepted and yields an empty DataFrame.  The CSV write is an
out-of-scope side effect.  Returns the DataFrame and the final global
random state. -/
def generate_random_dataset (g : GlobalRng) (num_rows : Int) :
    Except GenError (Dataset × GlobalRng) :=
  let seeded : GlobalRng := ⟨42, 0⟩
  if num_rows < 0 then .error .InvalidArgument
  else if ¬ weightsOk responseWeights then .error .InvalidArgument
  else
    let n := num_rows.toNat
    let responses := (List.range n).map (fun i =>
      Value.vInt (pick responseChoices 0 (npStream seeded.seed i)))
    let categories := (List.range n).map (fun i =>
      Value.vStr (pick categoryChoices "" (npStream seeded.seed (n + i))))
    let timestamps := (List.range n).map (fun i => Value.vTime i)
    .ok (⟨[("response", responses), ("category", categories), ("timestamp", timestamps)]⟩,
      ⟨seeded.seed, n + n⟩)

/-! ## Cluster Labeler (`analysis.perform_clustering`) -/

/-- The numeric reading sklearn's `check_array` gives a cell: integer
cells convert to their numeric value, strings and timestamps do not
convert (a `ValueError`). -/
def Value.toNum : Value → Option ℚ
  | .vInt n => some (n : ℚ)
  | _ => none

/-- Numeric conversion of a whole column; `none` as soon as one cell is
non-numeric. -/
def colNums : List Value → Option (List ℚ)
  | [] => some []
  | v :: rest =>
    match Value.toNum v, colNums rest with
    | some q, some qs => some (q :: qs)
    | _, _ => none

/-- Failure of `perform_clustering`: the `KeyError` of a missing column
and the sklearn `ValueError`s for `n_clusters < 1`, non-numeric data or
`n_samples < n_clusters` (the spec's `InvalidArgument`). -/
inductive ClusterError where
  | InvalidArgument
deriving DecidableEq, Repr

/-- `analysis.perform_clustering(data, column, n_clusters)`.  The
external k-means primitive is the parameter `F`: `F seed vals k` is
`KMeans(n_clusters=k, random_state=seed).fit_predict(vals)`; the code
always passes the fixed seed 0, and the ambient random state `g` is
never consulted.  The checks happen in the evaluation order of the
Python code — column lookup (`data[[column]]`), then sklearn's fit-time
validation — and all precede the column assignment, so on any failure
the dataset is untouched.  Returns the result of the call together with
the dataset as left by the call (modelling the in-place mutation
`data['cluster'] = ...`). -/
def perform_clustering (F : Nat → List ℚ → Nat → List Nat) (g : GlobalRng)
    (data : Dataset) (column : String) (n_clusters : Int) :
    Except ClusterError Dataset × Dataset :=
  match data.getCol column with
  | none => (.error .InvalidArgument, data)
  | some xs =>
    if n_clusters < 1 then (.error .InvalidArgument, data)
    else
      match colNums xs with
      | none => (.error .InvalidArgument, data)
      | some vals =>
        if (xs.length : Int) < n_clusters then (.error .InvalidArgument, data)
        else
          let labels := F 0 vals n_clusters.toNat
          let d' := data.setCol "cluster" (labels.map (fun i => Value.vInt (Int.ofNat i)))
          (.ok d', d')

/-! ## Order lemmas for `Value.ltB` -/

theorem Value.ltB_irrefl (v : Value) : Value.ltB v v = false := by
  cases v <;> simp [Value.ltB]

theorem Value.ltB_trans {a b c : Value} (h1 : Value.ltB a b = true)
    (h2 : Value.ltB b c = true) : Value.ltB a c = true := by
  cases a <;> cases b <;> cases c <;> simp_all [Value.ltB] <;>
    first
      | omega
      | exact lt_trans h1 h2

theorem Value.ltB_total (a b : Value) :
    a = b ∨ Value.ltB a b = true ∨ Value.ltB b a = true := by
  cases a <;> cases b <;>
    simp only [Value.ltB, decide_eq_true_eq, Value.vInt.injEq, Value.vStr.injEq,
      Value.vTime.injEq, or_true, true_or, or_self, reduceCtorEq, false_or] <;>
    first
      | trivial
      | (rename_i x y
         rcases lt_trichotomy x y with h | h | h
         · exact Or.inr (Or.inl h)
         · exact Or.inl h
         · exact Or.inr (Or.inr h))

/-! ## Lemmas about the mode computation -/

theorem minValueAux_mem (m : Value) (l : List Value) : minValueAux m l ∈ m :: l := by
  induction l generalizing m with
  | nil => simp [minValueAux]
  | cons v rest ih =>
    show minValueAux (if Value.ltB v m then v else m) rest ∈ m :: v :: rest
    rcases List.mem_cons.mp (ih (if Value.ltB v m then v else m)) with h | h
    · rw [h]; by_cases hv : Value.ltB v m <;> simp [hv]
    · simp [h]

theorem minValueAux_not_lt (m : Value) (l : List Value) :
    ∀ x ∈ m :: l, Value.ltB x (minValueAux m l) = false := by
  induction l generalizing m with
  | nil =>
    intro x hx
    have hxm : x = m := by simpa using hx
    subst hxm
    exact Value.ltB_irrefl x
  | cons v rest ih =>
    intro x hx
    have hstep : minValueAux m (v :: rest)
        = minValueAux (if Value.ltB v m then v else m) rest := rfl
    by_cases hv : Value.ltB v m = true
    · rw [hstep, if_pos hv]
      have hsub := ih v
      rcases List.mem_cons.mp hx with hxm | hx'
      · by_contra hcon
        have hres : Value.ltB x (minValueAux v rest) = true := by simpa using hcon
        have hvx : Value.ltB v x = true := hxm.symm ▸ hv
        have hvr : Value.ltB v (minValueAux v rest) = true := Value.ltB_trans hvx hres
        rw [hsub v (List.mem_cons_self v rest)] at hvr
        exact Bool.false_ne_true hvr
      · exact hsub x hx'
    · rw [hstep, if_neg hv]
      have hsub := ih m
      rcases List.mem_cons.mp hx with hxm | hx'
      · rw [hxm]
        exact hsub m (List.mem_cons_self m rest)
      · rcases List.mem_cons.mp hx' with hxv | hx''
        · rw [hxv]
          by_contra hcon
          have hres : Value.ltB v (minValueAux m rest) = true := by simpa using hcon
          rcases Value.ltB_total v m with heq | hlt | hgt
          · rw [heq] at hres
            rw [hsub m (List.mem_cons_self m rest)] at hres
            exact Bool.false_ne_true hres
          · exact hv hlt
          · have hmr : Value.ltB m (minValueAux m rest) = true := Value.ltB_trans hgt hres
            rw [hsub m (List.mem_cons_self m rest)] at hmr
            exact Bool.false_ne_true hmr
        · exact hsub x (List.mem_cons_of_mem m hx'')

theorem le_foldr_max {x : Nat} {l : List Nat} (h : x ∈ l) : x ≤ l.foldr max 0 := by
  induction l with
  | nil => simp at h
  | cons a t ih =>
    rcases List.mem_cons.mp h with rfl | h'
    · exact Nat.le_max_left _ _
    · exact le_trans (ih h') (Nat.le_max_right _ _)

theorem foldr_max_mem {l : List Nat} (h : l ≠ []) : l.foldr max 0 ∈ l := by
  induction l with
  | nil => exact absurd rfl h
  | cons a t ih =>
    cases t with
    | nil => simp
    | cons b u =>
      have hm := ih (by simp)
      show max a ((b :: u).foldr max 0) ∈ a :: b :: u
      rcases Nat.le_total a ((b :: u).foldr max 0) with hle | hle
      · rw [Nat.max_eq_right hle]; exact List.mem_cons_of_mem _ hm
      · rw [Nat.max_eq_left hle]; exact List.mem_cons_self _ _

theorem count_le_maxCount {xs : List Value} {v : Value} (h : v ∈ xs) :
    xs.count v ≤ maxCount xs :=
  le_foldr_max (List.mem_map_of_mem _ (List.mem_dedup.mpr h))

theorem maxCount_attained {xs : List Value} (h : xs ≠ []) :
    ∃ v ∈ xs.dedup, xs.count v = maxCount xs := by
  have hd : xs.dedup ≠ [] := by simpa [List.dedup_eq_nil] using h
  have hmem := foldr_max_mem (l := xs.dedup.map (fun v => xs.count v)) (by simpa using hd)
  rcases List.mem_map.mp hmem with ⟨v, hv, hveq⟩
  exact ⟨v, hv, hveq⟩

theorem mem_modeCandidates {xs : List Value} {v : Value} :
    v ∈ modeCandidates xs ↔ v ∈ xs.dedup ∧ xs.count v = maxCount xs := by
  simp [modeCandidates, List.mem_filter]

theorem modeCandidates_ne_nil {xs : List Value} (h : xs ≠ []) : modeCandidates xs ≠ [] := by
  rcases maxCount_attained h with ⟨v, hv, hveq⟩
  have hmem : v ∈ modeCandidates xs := mem_modeCandidates.mpr ⟨hv, hveq⟩
  intro hnil
  rw [hnil] at hmem
  simp at hmem

theorem mode0_eq_min {xs : List Value} {v : Value} {rest : List Value}
    (hm : modeCandidates xs = v :: rest) : mode0 xs = minValueAux v rest := by
  unfold mode0
  rw [hm]

theorem mode0_mem_candidates {xs : List Value} (h : xs ≠ []) :
    mode0 xs ∈ modeCandidates xs := by
  cases hm : modeCandidates xs with
  | nil => exact absurd hm (modeCandidates_ne_nil h)
  | cons v rest =>
    rw [mode0_eq_min hm]
    exact hm ▸ minValueAux_mem v rest

theorem mode0_not_lt {xs : List Value} (h : xs ≠ []) :
    ∀ w ∈ modeCandidates xs, Value.ltB w (mode0 xs) = false := by
  intro w hw
  cases hm : modeCandidates xs with
  | nil => exact absurd hm (modeCandidates_ne_nil h)
  | cons v rest =>
    rw [hm] at hw
    rw [mode0_eq_min hm]
    exact minValueAux_not_lt v rest w hw

theorem sum_dedup_count (xs : List Value) :
    (xs.dedup.map (fun v => xs.count v)).sum = xs.length := by
  have h1 : xs.dedup.toFinset.sum (fun v => xs.count v)
      = (xs.dedup.map (fun v => xs.count v)).sum :=
    List.sum_toFinset _ (List.nodup_dedup xs)
  have h2 : xs.dedup.toFinset = xs.toFinset :=
    List.toFinset.ext_iff.mpr (fun x => List.mem_dedup)
  rw [← h1, h2]
  exact List.sum_toFinset_count_eq_length xs

/-! ## Dataset frame lemmas -/

theorem find_setColList_same (c : String) (v : List Value)
    (l : List (String × List Value)) :
    ((setColList c v l).find? (fun p => p.1 == c)).map (fun p => p.2) = some v := by
  induction l with
  | nil => simp [setColList, List.find?]
  | cons p rest ih =>
    by_cases h : p.1 == c
    · simp [setColList, h, List.find?]
    · simp only [setColList, h, if_false, Bool.false_eq_true, List.find?]
      simpa [h] using ih

theorem getCol_setCol_same (d : Dataset) (c : String) (v : List Value) :
    (d.setCol c v).getCol c = some v :=
  find_setColList_same c v d.cols

theorem find_setColList_other (c c' : String) (v : List Value)
    (l : List (String × List Value)) (h : c' ≠ c) :
    (setColList c v l).find? (fun p => p.1 == c') = l.find? (fun p => p.1 == c') := by
  have hcc : (c == c') = false := by
    simpa [beq_iff_eq] using fun hc : c = c' => h hc.symm
  induction l with
  | nil => simp [setColList, List.find?, hcc]
  | cons p rest ih =>
    by_cases hp : p.1 == c
    · have hpc : p.1 = c := by simpa using hp
      have hpc' : (p.1 == c') = false := by rw [hpc]; exact hcc
      simp [setColList, hp, List.find?, hcc, hpc']
    · by_cases hp' : p.1 == c'
      · simp [setColList, hp, List.find?, hp']
      · simp [setColList, hp, List.find?, hp', ih]

theorem getCol_setCol_other (d : Dataset) (c c' : String) (v : List Value)
    (h : c' ≠ c) : (d.setCol c v).getCol c' = d.getCol c' := by
  unfold Dataset.setCol Dataset.getCol
  rw [find_setColList_other c c' v d.cols h]

theorem mem_setColList {c : String} {v : List Value}
    {l : List (String × List Value)} {p : String × List Value}
    (h : p ∈ setColList c v l) : p = (c, v) ∨ p ∈ l := by
  induction l with
  | nil => simpa [setColList] using h
  | cons q rest ih =>
    by_cases hq : q.1 == c
    · simp only [setColList, hq, if_true] at h
      rcases List.mem_cons.mp h with h' | h'
      · exact Or.inl h'
      · exact Or.inr (List.mem_cons_of_mem q h')
    · simp only [setColList, hq, if_false, Bool.false_eq_true] at h
      rcases List.mem_cons.mp h with h' | h'
      · exact Or.inr (h' ▸ List.mem_cons_self q rest)
      · rcases ih h' with h'' | h''
        · exact Or.inl h''
        · exact Or.inr (List.mem_cons_of_mem q h'')

theorem rowCount_setCol (d : Dataset) (c : String) (v : List Value)
    (hv : v.length = d.rowCount) : (d.setCol c v).rowCount = d.rowCount := by
  obtain ⟨l⟩ := d
  cases l with
  | nil => simpa [Dataset.setCol, setColList, Dataset.rowCount] using hv
  | cons p rest =>
    by_cases hp : p.1 == c
    · simpa [Dataset.setCol, setColList, hp, Dataset.rowCount] using hv
    · simp [Dataset.setCol, setColList, hp, Dataset.rowCount]

theorem Rect_setCol (d : Dataset) (c : String) (v : List Value)
    (hrect : d.Rect) (hv : v.length = d.rowCount) : (d.setCol c v).Rect := by
  intro p hp
  rw [rowCount_setCol d c v hv]
  rcases mem_setColList hp with hp' | hp'
  · rw [hp']
    exact hv
  · exact hrect p hp'

theorem getCol_length {d : Dataset} {c : String} {xs : List Value}
    (hrect : d.Rect) (h : d.getCol c = some xs) : xs.length = d.rowCount := by
  unfold Dataset.getCol at h
  cases hf : d.cols.find? (fun p => p.1 == c) with
  | none => rw [hf] at h; simp at h
  | some p =>
    rw [hf] at h
    simp only [Option.map_some'] at h
    have hmem := List.mem_of_find?_eq_some hf
    rw [← Option.some.inj h]
    exact hrect p hmem

/-! ## Claim theorems: Metrics Calculator -/

/-- C3: on a dataset whose named column exists and has at least one
row, `calculate_metrics` returns `proportion_unique = num_unique /
num_total`, and returns as `most_common` the value that comes first
when the column's values are ordered by descending frequency and then
ascending natural order, with `count_most_common` equal to that value's
occurrence count. -/
theorem calculate_metrics_spec (d : Dataset) (c : String) (xs : List Value)
    (h : d.getCol c = some xs) (hne : xs ≠ []) :
    ∃ r, calculate_metrics d c = .ok r ∧
      r.num_unique = xs.dedup.length ∧
      r.num_total = xs.length ∧
      r.proportion_unique = (r.num_unique : ℚ) / (r.num_total : ℚ) ∧
      r.most_common ∈ xs ∧
      r.count_most_common = xs.count r.most_common ∧
      (∀ w ∈ xs, w ≠ r.most_common →
        xs.count w < xs.count r.most_common ∨
          (xs.count w = xs.count r.most_common ∧
            Value.ltB r.most_common w = true)) := by
  have hlen : xs.length ≠ 0 := by simpa [List.length_eq_zero] using hne
  have hcm : xs.count (mode0 xs) = maxCount xs :=
    (mem_modeCandidates.mp (mode0_mem_candidates hne)).2
  refine ⟨⟨xs.dedup.length, xs.length,
    (xs.dedup.length : ℚ) / (xs.length : ℚ), mode0 xs, maxCount xs⟩,
    ?_, rfl, rfl, rfl, ?_, ?_, ?_⟩
  · simp [calculate_metrics, h, hlen]
  · exact List.mem_dedup.mp (mem_modeCandidates.mp (mode0_mem_candidates hne)).1
  · exact hcm.symm
  · intro w hw hwne
    have hle : xs.count w ≤ maxCount xs := count_le_maxCount hw
    rcases lt_or_eq_of_le hle with hlt | heqc
    · left
      rw [hcm]
      exact hlt
    · right
      refine ⟨by rw [hcm]; exact heqc, ?_⟩
      have hwc : w ∈ modeCandidates xs :=
        mem_modeCandidates.mpr ⟨List.mem_dedup.mpr hw, heqc⟩
      have hnotlt : Value.ltB w (mode0 xs) = false := mode0_not_lt hne w hwc
      rcases Value.ltB_total (mode0 xs) w with heq | hltb | hltb
      · exact absurd heq.symm hwne
      · exact hltb
      · rw [hnotlt] at hltb
        exact absurd hltb Bool.false_ne_true

/-- Witness for C3 at the reference example `response = [1,2,2,3,3,3]`:
the metrics are `num_unique = 3`, `num_total = 6`, `most_common = 3`,
`count_most_common = 3`. -/
theorem calculate_metrics_spec_witness :
    ∃ r, calculate_metrics
        ⟨[("response", [.vInt 1, .vInt 2, .vInt 2, .vInt 3, .vInt 3, .vInt 3])]⟩
        "response" = .ok r ∧
      r.num_unique = 3 ∧ r.num_total = 6 ∧ r.proportion_unique = 1/2 ∧
      r.most_common = .vInt 3 ∧ r.count_most_common = 3 := by
  obtain ⟨r, hr, -⟩ := calculate_metrics_spec
    ⟨[("response", [.vInt 1, .vInt 2, .vInt 2, .vInt 3, .vInt 3, .vInt 3])]⟩
    "response" [.vInt 1, .vInt 2, .vInt 2, .vInt 3, .vInt 3, .vInt 3]
    (by decide) (by decide)
  have hval : calculate_metrics
      ⟨[("response", [.vInt 1, .vInt 2, .vInt 2, .vInt 3, .vInt 3, .vInt 3])]⟩
      "response" = .ok ⟨3, 6, 1/2, .vInt 3, 3⟩ := by
    norm_num [calculate_metrics, Dataset.getCol, List.find?, List.dedup]
    exact ⟨by decide, by decide⟩
  have hreq : r = ⟨3, 6, 1/2, .vInt 3, 3⟩ := Except.ok.inj (hr.symm.trans hval)
  exact ⟨r, hr, by rw [hreq], by rw [hreq], by rw [hreq], by rw [hreq], by rw [hreq]⟩

/-- C7 counterexample: on a dataset with zero rows whose schema lacks
the requested column, `calculate_metrics` fails with `UnknownColumn`,
not `EmptyColumn` (the column lookup is evaluated before any row-count
check), so the claim's "fails with EmptyColumn for every dataset with
zero rows" is false as stated. -/
theorem calculate_metrics_empty_unknown_counterexample :
    Dataset.rowCount ⟨[("response", [])]⟩ = 0 ∧
    calculate_metrics ⟨[("response", [])]⟩ "missing" = .error .UnknownColumn ∧
    calculate_metrics ⟨[("response", [])]⟩ "missing" ≠ .error .EmptyColumn := by
  decide

/-- C7 (amended): `calculate_metrics` fails with `UnknownColumn`
whenever the named column is absent (this takes priority even on a
zero-row dataset); it fails with `EmptyColumn` whenever the column is
present and the dataset has zero rows; and it succeeds in all other
cases. -/
theorem calculate_metrics_errors :
    (∀ (d : Dataset) (c : String), d.getCol c = none →
      calculate_metrics d c = .error .UnknownColumn) ∧
    (∀ (d : Dataset) (c : String) (xs : List Value), d.Rect →
      d.getCol c = some xs → d.rowCount = 0 →
      calculate_metrics d c = .error .EmptyColumn) ∧
    (∀ (d : Dataset) (c : String) (xs : List Value), d.Rect →
      d.getCol c = some xs → 0 < d.rowCount →
      ∃ r, calculate_metrics d c = .ok r) := by
  refine ⟨?_, ?_, ?_⟩
  · intro d c h
    simp [calculate_metrics, h]
  · intro d c xs hrect h hz
    have hlen : xs.length = 0 := by rw [getCol_length hrect h, hz]
    simp [calculate_metrics, h, hlen]
  · intro d c xs hrect h hpos
    have hlen : xs.length ≠ 0 := by
      rw [getCol_length hrect h]
      exact Nat.pos_iff_ne_zero.mp hpos
    exact ⟨⟨xs.dedup.length, xs.length,
      (xs.dedup.length : ℚ) / (xs.length : ℚ), mode0 xs, maxCount xs⟩,
      by simp [calculate_metrics, h, hlen]⟩

/-- Witness for the amended C7: one concrete dataset per branch. -/
theorem calculate_metrics_errors_witness :
    calculate_metrics ⟨[("response", [.vInt 1])]⟩ "missing" = .error .UnknownColumn ∧
    calculate_metrics ⟨[("response", [])]⟩ "response" = .error .EmptyColumn ∧
    ∃ r, calculate_metrics ⟨[("response", [.vInt 1])]⟩ "response" = .ok r :=
  ⟨calculate_metrics_errors.1 ⟨[("response", [.vInt 1])]⟩ "missing" (by decide),
   calculate_metrics_errors.2.1 ⟨[("response", [])]⟩ "response" [] (by decide)
     (by decide) (by decide),
   calculate_metrics_errors.2.2 ⟨[("response", [.vInt 1])]⟩ "response" [.vInt 1]
     (by decide) (by decide) (by decide)⟩

/-- C10: whenever `calculate_metrics` succeeds on a non-empty column,
the pigeonhole bound `num_total ≤ count_most_common * num_unique`
holds, together with `1 ≤ count_most_common ≤ num_total`. -/
theorem calculate_metrics_pigeonhole (d : Dataset) (c : String)
    (xs : List Value) (r : MetricsResult) (h : d.getCol c = some xs)
    (hne : xs ≠ []) (hr : calculate_metrics d c = .ok r) :
    r.num_total ≤ r.count_most_common * r.num_unique ∧
    1 ≤ r.count_most_common ∧ r.count_most_common ≤ r.num_total := by
  have hlen : xs.length ≠ 0 := by simpa [List.length_eq_zero] using hne
  have hval : calculate_metrics d c = .ok
      ⟨xs.dedup.length, xs.length, (xs.dedup.length : ℚ) / (xs.length : ℚ),
        mode0 xs, maxCount xs⟩ := by
    simp [calculate_metrics, h, hlen]
  have hreq : r = ⟨xs.dedup.length, xs.length,
      (xs.dedup.length : ℚ) / (xs.length : ℚ), mode0 xs, maxCount xs⟩ :=
    Except.ok.inj (hr.symm.trans hval)
  subst hreq
  refine ⟨?_, ?_, ?_⟩
  · have hb : ∀ x ∈ xs.dedup.map (fun v => xs.count v), x ≤ maxCount xs := by
      intro x hx
      rcases List.mem_map.mp hx with ⟨v, hv, rfl⟩
      exact count_le_maxCount (List.mem_dedup.mp hv)
    have hs := List.sum_le_card_nsmul (xs.dedup.map (fun v => xs.count v))
      (maxCount xs) hb
    rw [sum_dedup_count, List.length_map] at hs
    simpa [smul_eq_mul, Nat.mul_comm] using hs
  · obtain ⟨v, hv⟩ := List.exists_mem_of_ne_nil xs hne
    exact le_trans (List.count_pos_iff.mpr hv) (count_le_maxCount hv)
  · rcases maxCount_attained hne with ⟨v, hvd, hveq⟩
    rw [← hveq]
    exact List.count_le_length v xs

/-- Witness for C10 at `response = [1,2,2,3,3,3]`. -/
theorem calculate_metrics_pigeonhole_witness :
    (⟨3, 6, 1/2, .vInt 3, 3⟩ : MetricsResult).num_total
        ≤ (⟨3, 6, 1/2, .vInt 3, 3⟩ : MetricsResult).count_most_common
          * (⟨3, 6, 1/2, .vInt 3, 3⟩ : MetricsResult).num_unique ∧
    1 ≤ (⟨3, 6, 1/2, .vInt 3, 3⟩ : MetricsResult).count_most_common ∧
    (⟨3, 6, 1/2, .vInt 3, 3⟩ : MetricsResult).count_most_common
        ≤ (⟨3, 6, 1/2, .vInt 3, 3⟩ : MetricsResult).num_total :=
  calculate_metrics_pigeonhole
    ⟨[("response", [.vInt 1, .vInt 2, .vInt 2, .vInt 3, .vInt 3, .vInt 3])]⟩
    "response" [.vInt 1, .vInt 2, .vInt 2, .vInt 3, .vInt 3, .vInt 3]
    ⟨3, 6, 1/2, .vInt 3, 3⟩ (by decide) (by decide)
    (by
      norm_num [calculate_metrics, Dataset.getCol, List.find?, List.dedup]
      exact ⟨by decide, by decide⟩)

/-! ## Claim theorems: Uniformity Tester -/

/-- C1: on a column with at least one row and at least two distinct
values, `perform_chi_square_test` returns the chi-square statistic
`Σ (observed − expected)² / expected` summed over the distinct observed
values, with `expected = totalRows / distinctCount` for every bucket
(absent values are excluded), and the p-value is the chi-square
survival function at `distinctCount − 1` degrees of freedom; in
particular, when all distinct values occur equally often the statistic
is `0` and the p-value is `1`. -/
theorem chi_square_spec (sf : Nat → ℚ → ℚ) (d : Dataset) (c : String)
    (xs : List Value) (h : d.getCol c = some xs) (hrect : d.Rect)
    (hne : xs ≠ []) (hk : 2 ≤ xs.dedup.length) :
    perform_chi_square_test sf d c =
      .ok ((xs.dedup.map (fun v =>
          ((xs.count v : ℚ) - (xs.length : ℚ) / (xs.dedup.length : ℚ)) ^ 2
            / ((xs.length : ℚ) / (xs.dedup.length : ℚ)))).sum,
        sf (xs.dedup.length - 1)
          ((xs.dedup.map (fun v =>
            ((xs.count v : ℚ) - (xs.length : ℚ) / (xs.dedup.length : ℚ)) ^ 2
              / ((xs.length : ℚ) / (xs.dedup.length : ℚ)))).sum)) ∧
    ((∀ v ∈ xs.dedup, ∀ w ∈ xs.dedup, xs.count v = xs.count w) →
      sf (xs.dedup.length - 1) 0 = 1 →
      perform_chi_square_test sf d c = .ok (0, 1)) := by
  have hrc : d.rowCount = xs.length := (getCol_length hrect h).symm
  have hk0 : xs.dedup.length ≠ 0 := by omega
  have hmain : perform_chi_square_test sf d c =
      .ok ((xs.dedup.map (fun v =>
          ((xs.count v : ℚ) - (xs.length : ℚ) / (xs.dedup.length : ℚ)) ^ 2
            / ((xs.length : ℚ) / (xs.dedup.length : ℚ)))).sum,
        sf (xs.dedup.length - 1)
          ((xs.dedup.map (fun v =>
            ((xs.count v : ℚ) - (xs.length : ℚ) / (xs.dedup.length : ℚ)) ^ 2
              / ((xs.length : ℚ) / (xs.dedup.length : ℚ)))).sum)) := by
    simp only [perform_chi_square_test, h]
    rw [hrc, if_neg hk0]
  refine ⟨hmain, fun huni hsf => ?_⟩
  have hddne : xs.dedup ≠ [] := by simpa [List.dedup_eq_nil] using hne
  obtain ⟨v0, hv0⟩ := List.exists_mem_of_ne_nil _ hddne
  have hcnt : ∀ v ∈ xs.dedup, xs.count v = xs.count v0 :=
    fun v hv => huni v hv v0 hv0
  have hlen : xs.length = xs.dedup.length * xs.count v0 := by
    rw [← sum_dedup_count xs, List.map_congr_left hcnt, List.map_const',
      List.sum_replicate, smul_eq_mul]
  have hkq : (xs.dedup.length : ℚ) ≠ 0 := Nat.cast_ne_zero.mpr hk0
  have he : (xs.length : ℚ) / (xs.dedup.length : ℚ) = (xs.count v0 : ℚ) := by
    rw [hlen]
    push_cast
    exact mul_div_cancel_left₀ _ hkq
  have hchi : (xs.dedup.map (fun v =>
      ((xs.count v : ℚ) - (xs.length : ℚ) / (xs.dedup.length : ℚ)) ^ 2
        / ((xs.length : ℚ) / (xs.dedup.length : ℚ)))).sum = 0 := by
    apply List.sum_eq_zero
    intro x hx
    rcases List.mem_map.mp hx with ⟨v, hv, rfl⟩
    rw [hcnt v hv, he]
    simp
  rw [hmain, hchi, hsf]

/-- Witness for C1 at the uniform column `[1, 2]` (each value once),
with a survival function sending the zero statistic to `1`. -/
theorem chi_square_spec_witness :
    perform_chi_square_test (fun _ _ => 1)
      ⟨[("response", [.vInt 1, .vInt 2])]⟩ "response" = .ok (0, 1) := by
  have hspec := chi_square_spec (fun _ _ => 1)
    ⟨[("response", [.vInt 1, .vInt 2])]⟩ "response" [.vInt 1, .vInt 2]
    (by decide) (by decide) (by decide) (by decide)
  exact hspec.2 (by decide) rfl

/-- C8 counterexample: a column with a single distinct value does not
fail — `scipy.stats.chisquare` computes a zero statistic and hands the
p-value to the distribution evaluator at zero degrees of freedom (NaN
in the reference implementation) — contradicting the claim that every
input with fewer than two distinct values fails with
`DegenerateInput`. -/
theorem chi_square_degenerate_counterexample :
    perform_chi_square_test (fun _ _ => 1)
        ⟨[("response", [.vInt 1, .vInt 1])]⟩ "response" = .ok (0, 1) ∧
    perform_chi_square_test (fun _ _ => 1)
        ⟨[("response", [.vInt 1, .vInt 1])]⟩ "response"
      ≠ .error .DegenerateInput := by
  have h1 : perform_chi_square_test (fun _ _ => 1)
      ⟨[("response", [.vInt 1, .vInt 1])]⟩ "response" = .ok (0, 1) := by
    norm_num [perform_chi_square_test, Dataset.getCol, List.find?, List.dedup,
      Dataset.rowCount]
  exact ⟨h1, by rw [h1]; intro hcon; cases hcon⟩

/-- C8 (amended): `perform_chi_square_test` fails with
`DegenerateInput` when the column is present but has zero rows (the
`len(data)/len(observed)` division raises); on a column with exactly
one distinct value it does **not** fail: it returns statistic `0` and
delegates the p-value to the external evaluator at `0` degrees of
freedom; on any non-empty column it returns a well-formed
(statistic, p-value) pair. -/
theorem chi_square_degenerate_amended (sf : Nat → ℚ → ℚ) :
    (∀ (d : Dataset) (c : String), d.getCol c = some [] →
      perform_chi_square_test sf d c = .error .DegenerateInput) ∧
    (∀ (d : Dataset) (c : String) (xs : List Value), d.Rect →
      d.getCol c = some xs → xs.dedup.length = 1 →
      perform_chi_square_test sf d c = .ok (0, sf 0 0)) ∧
    (∀ (d : Dataset) (c : String) (xs : List Value),
      d.getCol c = some xs → xs ≠ [] →
      ∃ s p, perform_chi_square_test sf d c = .ok (s, p)) := by
  refine ⟨?_, ?_, ?_⟩
  · intro d c h
    simp [perform_chi_square_test, h, List.dedup]
  · intro d c xs hrect h hk1
    obtain ⟨v, hv⟩ := List.length_eq_one.mp hk1
    have hrc : d.rowCount = xs.length := (getCol_length hrect h).symm
    have hcv : xs.count v = xs.length := by
      apply List.count_eq_length.mpr
      intro b hb
      have hbd : b ∈ xs.dedup := List.mem_dedup.mpr hb
      rw [hv] at hbd
      exact (List.mem_singleton.mp hbd).symm
    simp only [perform_chi_square_test, h, hk1, hrc]
    rw [if_neg (by omega : (1 : Nat) ≠ 0)]
    rw [hv]
    simp [hcv]
  · intro d c xs h hne
    have hk0 : xs.dedup.length ≠ 0 := by
      simpa [List.length_eq_zero, List.dedup_eq_nil] using hne
    refine ⟨(xs.dedup.map (fun v =>
        ((xs.count v : ℚ) - (d.rowCount : ℚ) / (xs.dedup.length : ℚ)) ^ 2
          / ((d.rowCount : ℚ) / (xs.dedup.length : ℚ)))).sum,
      sf (xs.dedup.length - 1) ((xs.dedup.map (fun v =>
        ((xs.count v : ℚ) - (d.rowCount : ℚ) / (xs.dedup.length : ℚ)) ^ 2
          / ((d.rowCount : ℚ) / (xs.dedup.length : ℚ)))).sum), ?_⟩
    simp only [perform_chi_square_test, h]
    rw [if_neg hk0]

/-- Witness for the amended C8: one concrete input per branch. -/
theorem chi_square_degenerate_amended_witness :
    perform_chi_square_test (fun _ _ => 1) ⟨[("response", [])]⟩ "response"
        = .error .DegenerateInput ∧
    perform_chi_square_test (fun _ _ => 1)
        ⟨[("category", [.vStr "A", .vStr "A", .vStr "A"])]⟩ "category"
        = .ok (0, 1) ∧
    (∃ s p, perform_chi_square_test (fun _ _ => 1)
        ⟨[("response", [.vInt 1, .vInt 2, .vInt 2])]⟩ "response" = .ok (s, p)) :=
  ⟨(chi_square_degenerate_amended (fun _ _ => 1)).1
      ⟨[("response", [])]⟩ "response" (by decide),
   (chi_square_degenerate_amended (fun _ _ => 1)).2.1
      ⟨[("category", [.vStr "A", .vStr "A", .vStr "A"])]⟩ "category"
      [.vStr "A", .vStr "A", .vStr "A"] (by decide) (by decide) (by decide),
   (chi_square_degenerate_amended (fun _ _ => 1)).2.2
      ⟨[("response", [.vInt 1, .vInt 2, .vInt 2])]⟩ "response"
      [.vInt 1, .vInt 2, .vInt 2] (by decide) (by decide)⟩

/-! ## Claim theorems: Dataset Generator -/

theorem pick_mem {α : Type} (l : List α) (dflt : α) (k : Nat) (h : l ≠ []) :
    pick l dflt k ∈ l := by
  have hlen : 0 < l.length := List.length_pos.mpr h
  have hmod : k % l.length < l.length := Nat.mod_lt _ hlen
  rw [pick, List.getD_eq_getElem?_getD, List.getElem?_eq_getElem hmod]
  simp only [Option.getD_some]
  exact List.getElem_mem hmod

theorem weightsOk_responseWeights : weightsOk responseWeights = true := by
  norm_num [weightsOk, responseWeights]

/-- C2: for every `rowCount > 0`, `generate_random_dataset` (with its
fixed internal seed) returns a dataset of exactly `rowCount` rows whose
`response` column holds only integers in `[1, 10]`, whose `category`
column holds only values from `A, B, C, D`, and whose `timestamp`
column is `epoch + i minutes` at row `i`. -/
theorem generate_spec (g : GlobalRng) (num_rows : Int) (h : 0 < num_rows) :
    ∃ (d : Dataset) (g' : GlobalRng),
      generate_random_dataset g num_rows = .ok (d, g') ∧
      d.rowCount = num_rows.toNat ∧ d.Rect ∧
      (∃ rs, d.getCol "response" = some rs ∧ rs.length = num_rows.toNat ∧
        ∀ v ∈ rs, ∃ m : Int, v = .vInt m ∧ 1 ≤ m ∧ m ≤ 10) ∧
      (∃ cs, d.getCol "category" = some cs ∧ cs.length = num_rows.toNat ∧
        ∀ v ∈ cs, v = .vStr "A" ∨ v = .vStr "B" ∨ v = .vStr "C" ∨ v = .vStr "D") ∧
      d.getCol "timestamp"
        = some ((List.range num_rows.toNat).map (fun i => .vTime i)) := by
  have hnn : ¬ num_rows < 0 := by omega
  have hgen : generate_random_dataset g num_rows =
      .ok (⟨[("response", (List.range num_rows.toNat).map (fun i =>
          Value.vInt (pick responseChoices 0 (npStream 42 i)))),
        ("category", (List.range num_rows.toNat).map (fun i =>
          Value.vStr (pick categoryChoices "" (npStream 42 (num_rows.toNat + i))))),
        ("timestamp", (List.range num_rows.toNat).map (fun i => Value.vTime i))]⟩,
        ⟨42, num_rows.toNat + num_rows.toNat⟩) := by
    simp only [generate_random_dataset]
    rw [if_neg hnn, if_neg (by simp [weightsOk_responseWeights])]
  refine ⟨_, _, hgen, ?_, ?_, ?_, ?_, ?_⟩
  · simp [Dataset.rowCount]
  · intro p hp
    simp only [List.mem_cons, List.not_mem_nil, or_false] at hp
    rcases hp with rfl | rfl | rfl <;> simp [Dataset.rowCount]
  · refine ⟨(List.range num_rows.toNat).map (fun i =>
        Value.vInt (pick responseChoices 0 (npStream 42 i))), ?_, by simp, ?_⟩
    · simp [Dataset.getCol, List.find?]
    · intro v hv
      rcases List.mem_map.mp hv with ⟨i, _, rfl⟩
      have hmem : pick responseChoices 0 (npStream 42 i) ∈ responseChoices :=
        pick_mem _ _ _ (by decide)
      have hall : ∀ x ∈ responseChoices, 1 ≤ x ∧ x ≤ 10 := by decide
      exact ⟨_, rfl, (hall _ hmem).1, (hall _ hmem).2⟩
  · refine ⟨(List.range num_rows.toNat).map (fun i =>
        Value.vStr (pick categoryChoices "" (npStream 42 (num_rows.toNat + i)))),
      ?_, by simp, ?_⟩
    · simp only [Dataset.getCol, List.find?]
      rw [show (("response" == "category") : Bool) = false by decide]
      simp [List.find?]
    · intro v hv
      rcases List.mem_map.mp hv with ⟨i, _, rfl⟩
      have hmem : pick categoryChoices "" (npStream 42 (num_rows.toNat + i))
          ∈ categoryChoices := pick_mem _ _ _ (by decide)
      have hall : ∀ x ∈ categoryChoices,
          x = "A" ∨ x = "B" ∨ x = "C" ∨ x = "D" := by decide
      rcases hall _ hmem with h' | h' | h' | h' <;> simp [h']
  · simp only [Dataset.getCol, List.find?]
    rw [show (("response" == "timestamp") : Bool) = false by decide,
      show (("category" == "timestamp") : Bool) = false by decide]
    simp [List.find?]

/-- Witness for C2 at `rowCount = 3`. -/
theorem generate_spec_witness :
    ∃ (d : Dataset) (g' : GlobalRng),
      generate_random_dataset ⟨0, 0⟩ 3 = .ok (d, g') ∧
      d.rowCount = (3 : Int).toNat ∧ d.Rect ∧
      (∃ rs, d.getCol "response" = some rs ∧ rs.length = (3 : Int).toNat ∧
        ∀ v ∈ rs, ∃ m : Int, v = .vInt m ∧ 1 ≤ m ∧ m ≤ 10) ∧
      (∃ cs, d.getCol "category" = some cs ∧ cs.length = (3 : Int).toNat ∧
        ∀ v ∈ cs, v = .vStr "A" ∨ v = .vStr "B" ∨ v = .vStr "C" ∨ v = .vStr "D") ∧
      d.getCol "timestamp"
        = some ((List.range (3 : Int).toNat).map (fun i => .vTime i)) :=
  generate_spec ⟨0, 0⟩ 3 (by decide)

/-- C9 counterexample: `generate_random_dataset` called with
`rowCount = 0` succeeds with an empty dataset — numpy accepts a zero
sample size — so the claim that every `rowCount ≤ 0` fails with
`InvalidArgument` is false as stated. -/
theorem generate_zero_rows_counterexample :
    generate_random_dataset ⟨0, 0⟩ 0
        = .ok (⟨[("response", []), ("category", []), ("timestamp", [])]⟩, ⟨42, 0⟩) ∧
    generate_random_dataset ⟨0, 0⟩ 0 ≠ .error .InvalidArgument := by
  have h1 : generate_random_dataset ⟨0, 0⟩ 0
      = .ok (⟨[("response", []), ("category", []), ("timestamp", [])]⟩, ⟨42, 0⟩) := by
    simp [generate_random_dataset, weightsOk_responseWeights]
  exact ⟨h1, by rw [h1]; intro hcon; cases hcon⟩

/-- C9 (amended): `generate_random_dataset` fails with
`InvalidArgument` for every `rowCount < 0` (numpy rejects a negative
sample size); for `rowCount = 0` it succeeds and returns an empty
dataset; and the hard-coded response weights sum to exactly 1, so the
weight-sum validation (performed inside the sampling primitive at call
time, within tolerance `1e-6`) always passes. -/
theorem generate_invalid_amended :
    (∀ (g : GlobalRng) (num_rows : Int), num_rows < 0 →
      generate_random_dataset g num_rows = .error .InvalidArgument) ∧
    weightsOk responseWeights = true ∧
    (∀ g : GlobalRng, generate_random_dataset g 0
      = .ok (⟨[("response", []), ("category", []), ("timestamp", [])]⟩, ⟨42, 0⟩)) := by
  refine ⟨?_, weightsOk_responseWeights, ?_⟩
  · intro g num_rows h
    simp [generate_random_dataset, h]
  · intro g
    simp [generate_random_dataset, weightsOk_responseWeights]

/-- Witness for the amended C9. -/
theorem generate_invalid_amended_witness :
    generate_random_dataset ⟨7, 3⟩ (-1) = .error .InvalidArgument ∧
    weightsOk responseWeights = true ∧
    generate_random_dataset ⟨7, 3⟩ 0
        = .ok (⟨[("response", []), ("category", []), ("timestamp", [])]⟩, ⟨42, 0⟩) :=
  ⟨generate_invalid_amended.1 ⟨7, 3⟩ (-1) (by decide),
   generate_invalid_amended.2.1,
   generate_invalid_amended.2.2 ⟨7, 3⟩⟩

/-- C6: determinism — the generator re-seeds the global stream with the
fixed seed 42 (`np.random.seed(42)`), and the cluster labeler passes
the fixed `random_state=0` to the external k-means primitive, so both
are independent of the ambient random state: two calls with identical
remaining inputs give identical results. -/
theorem pipeline_deterministic :
    (∀ (g₁ g₂ : GlobalRng) (num_rows : Int),
      generate_random_dataset g₁ num_rows = generate_random_dataset g₂ num_rows) ∧
    (∀ (F : Nat → List ℚ → Nat → List Nat) (g₁ g₂ : GlobalRng)
      (d : Dataset) (c : String) (k : Int),
      perform_clustering F g₁ d c k = perform_clustering F g₂ d c k) :=
  ⟨fun _ _ _ => rfl, fun _ _ _ _ _ _ => rfl⟩

/-! ## Claim theorems: Cluster Labeler -/

theorem colNums_length {xs : List Value} {vals : List ℚ}
    (h : colNums xs = some vals) : vals.length = xs.length := by
  induction xs generalizing vals with
  | nil =>
    simp only [colNums] at h
    rw [← Option.some.inj h]
    rfl
  | cons v rest ih =>
    simp only [colNums] at h
    cases hv : Value.toNum v with
    | none => rw [hv] at h; cases h
    | some q =>
      rw [hv] at h
      cases hr : colNums rest with
      | none => rw [hr] at h; cases h
      | some qs =>
        rw [hr] at h
        rw [← Option.some.inj h]
        simp [ih hr]

/-- C4: for every dataset, numeric column and valid `k`, a successful
`perform_clustering` returns the dataset with the `cluster` column
appended (overwritten in place if it already exists) and with the same
row count, row order, and unchanged values in every pre-existing
column.  The hypothesis `hF` is the contract of the external k-means
primitive: it returns one label per input row. -/
theorem perform_clustering_frame (F : Nat → List ℚ → Nat → List Nat)
    (g : GlobalRng) (d : Dataset) (c : String) (k : Int) (xs : List Value)
    (vals : List ℚ)
    (hF : ∀ (s : Nat) (v : List ℚ) (n : Nat), (F s v n).length = v.length)
    (hrect : d.Rect) (h : d.getCol c = some xs)
    (hvals : colNums xs = some vals) (hk1 : 1 ≤ k)
    (hkn : k ≤ (xs.length : Int)) :
    ∃ d', perform_clustering F g d c k = (.ok d', d') ∧
      d' = d.setCol "cluster"
        ((F 0 vals k.toNat).map (fun i => Value.vInt (Int.ofNat i))) ∧
      d'.getCol "cluster"
        = some ((F 0 vals k.toNat).map (fun i => Value.vInt (Int.ofNat i))) ∧
      (∀ c', c' ≠ "cluster" → d'.getCol c' = d.getCol c') ∧
      d'.rowCount = d.rowCount ∧ d'.Rect := by
  have hnk : ¬ k < 1 := by omega
  have hnlen : ¬ ((xs.length : Int) < k) := by omega
  have hlabels : ((F 0 vals k.toNat).map
      (fun i => Value.vInt (Int.ofNat i))).length = d.rowCount := by
    rw [List.length_map, hF, colNums_length hvals]
    exact getCol_length hrect h
  refine ⟨d.setCol "cluster"
      ((F 0 vals k.toNat).map (fun i => Value.vInt (Int.ofNat i))),
    ?_, rfl, ?_, ?_, ?_, ?_⟩
  · simp only [perform_clustering, h, hvals]
    rw [if_neg hnk, if_neg hnlen]
  · exact getCol_setCol_same d "cluster" _
  · intro c' hc'
    exact getCol_setCol_other d "cluster" c' _ hc'
  · exact rowCount_setCol d _ _ hlabels
  · exact Rect_setCol d _ _ hrect hlabels

/-- Witness for C4 on a two-row numeric column with `k = 2` and a
length-preserving stand-in for the k-means primitive. -/
theorem perform_clustering_frame_witness :
    perform_clustering (fun _ v _ => List.replicate v.length 0) ⟨0, 0⟩
        ⟨[("response", [.vInt 1, .vInt 2])]⟩ "response" 2
      = (.ok ⟨[("response", [.vInt 1, .vInt 2]), ("cluster", [.vInt 0, .vInt 0])]⟩,
          ⟨[("response", [.vInt 1, .vInt 2]), ("cluster", [.vInt 0, .vInt 0])]⟩) := by
  obtain ⟨d', hd', hdef, -⟩ := perform_clustering_frame
    (fun _ v _ => List.replicate v.length 0) ⟨0, 0⟩
    ⟨[("response", [.vInt 1, .vInt 2])]⟩ "response" 2 [.vInt 1, .vInt 2]
    [(1 : Int), (2 : Int)]
    (fun _ v _ => by simp) (by decide) (by decide)
    (by simp [colNums, Value.toNum]) (by decide) (by decide)
  have hset : Dataset.setCol ⟨[("response", [.vInt 1, .vInt 2])]⟩ "cluster"
      (((fun (_ : Nat) (v : List ℚ) (_ : Nat) => List.replicate v.length 0) 0
          [(1 : Int), (2 : Int)] (2 : Int).toNat).map
        (fun i => Value.vInt (Int.ofNat i)))
      = ⟨[("response", [.vInt 1, .vInt 2]), ("cluster", [.vInt 0, .vInt 0])]⟩ := by
    simp [Dataset.setCol, setColList]
  rw [hdef, hset] at hd'
  exact hd'

/-- C5: `perform_clustering` fails with `InvalidArgument` whenever
`k ≤ 0`, `k` exceeds the number of rows, or the named column is absent
or non-numeric, and on every such failure the dataset is returned
completely unmodified: all failing checks precede the column
assignment. -/
theorem perform_clustering_invalid (F : Nat → List ℚ → Nat → List Nat)
    (g : GlobalRng) (d : Dataset) (c : String) (k : Int) (hrect : d.Rect)
    (h : k ≤ 0 ∨ (d.rowCount : Int) < k ∨ d.getCol c = none ∨
      (∃ xs, d.getCol c = some xs ∧ colNums xs = none)) :
    perform_clustering F g d c k = (.error .InvalidArgument, d) := by
  cases hcol : d.getCol c with
  | none => simp [perform_clustering, hcol]
  | some xs =>
    have hlen : xs.length = d.rowCount := getCol_length hrect hcol
    by_cases hk : k < 1
    · simp [perform_clustering, hcol, hk]
    · rcases h with hk0 | hrk | hnone | ⟨xs', hxs', hcn⟩
      · omega
      · cases hcnum : colNums xs with
        | none => simp [perform_clustering, hcol, hk, hcnum]
        | some vals =>
          have hlt : (xs.length : Int) < k := by
            rw [hlen]
            exact_mod_cast hrk
          simp [perform_clustering, hcol, hk, hcnum, hlt]
      · rw [hnone] at hcol
        cases hcol
      · rw [hxs'] at hcol
        have hxx : xs' = xs := Option.some.inj hcol
        rw [hxx] at hcn
        simp [perform_clustering, hxs', hxx, hk, hcn]

/-- Witness for C5 with `k = 0` on a valid numeric column. -/
theorem perform_clustering_invalid_witness :
    perform_clustering (fun _ v _ => List.replicate v.length 0) ⟨0, 0⟩
        ⟨[("response", [.vInt 1, .vInt 2])]⟩ "response" 0
      = (.error .InvalidArgument, ⟨[("response", [.vInt 1, .vInt 2])]⟩) :=
  perform_clustering_invalid (fun _ v _ => List.replicate v.length 0) ⟨0, 0⟩
    ⟨[("response", [.vInt 1, .vInt 2])]⟩ "response" 0 (by decide)
    (Or.inl (by decide))
